import Mathlib

/-!
Verification development for the gamlss-curve-optimization repository.

The repository orchestrates GAMLSS growth-curve fitting: `main.py` loads an
observation spreadsheet, locates the sex column, builds biomarker column names
from tissue and biomarker types, filters rows with missing values, renders an
age-distribution histogram, then for every sex x tissue x biomarker
combination prepares (optionally) a disease-data subset and invokes an
external R fitting script, aggregating results into a nested dictionary that
is pickled and later rendered into a PDF report by
`generate_output_report.py`.

This file gives a shallow embedding of that orchestration logic.  Python
strings are modelled as Lean `String`s (operated on through their character
lists so that everything kernel-evaluates), data-frame rows as structures
with `Option`-valued cells (`none` models a missing value / NaN), Python
dictionaries as insertion-ordered association lists, the opaque external R
fitter as an oracle function returning `Except`, and Python exceptions as
`Except` errors.  Numeric cell values use `ℚ`; the report's float formatting
is abstracted by storing already-rendered strings in model parameters, since
none of the verified properties concern decimal formatting.
-/

/-! ## String primitives

Python operators used by the source: `in` (substring containment),
`str.split`, `str.lower`, `str.endswith`, and list indexing.  These are
modelled on character lists so that they reduce in the kernel. -/

/-- `needleIsPrefix n h` models "the list `n` is an initial segment of `h`". -/
def needleIsPrefix : List Char → List Char → Bool
  | [], _ => true
  | _ :: _, [] => false
  | a :: as, b :: bs => a = b && needleIsPrefix as bs

/-- `subList n h` models the Python expression `n in h` on strings:
substring containment of `n` in `h`. -/
def subList (needle : List Char) : List Char → Bool
  | [] => needle.isEmpty
  | c :: cs => needleIsPrefix needle (c :: cs) || subList needle cs

/-- `strIn needle hay` models Python `needle in hay` for strings. -/
def strIn (needle hay : String) : Bool :=
  subList needle.toList hay.toList

/-- `splitChar sep l` models Python `str.split(sep)` (single-character
separator) on the character list `l`. -/
def splitChar (sep : Char) : List Char → List (List Char)
  | [] => [[]]
  | c :: cs =>
    if c = sep then [] :: splitChar sep cs
    else
      match splitChar sep cs with
      | [] => [[c]]
      | g :: gs => (c :: g) :: gs

/-- `biomarker.split('_')[-1]` from `main.py` line 150: the biomarker-type
part of a biomarker key, i.e. the segment after the last underscore. -/
def biomarkerTypeOf (b : String) : List Char :=
  (splitChar '_' b.toList).getLastD []

/-- `main.py` lines 149-150: the Disease-Data Matcher's column selection —
`[col for col in disease_tissue_map.keys() if biomarker.split('_')[-1] in col]`.
Selection is by Python substring containment, not suffix matching. -/
def diseaseColsFor (diseaseKeys : List String) (biomarker : String) : List String :=
  diseaseKeys.filter (fun col => subList (biomarkerTypeOf biomarker) col.toList)

theorem needleIsPrefix_iff (n h : List Char) :
    needleIsPrefix n h = true ↔ ∃ t, h = n ++ t := by
  induction n generalizing h with
  | nil => simp [needleIsPrefix]
  | cons a as ih =>
    cases h with
    | nil => simp [needleIsPrefix]
    | cons b bs =>
      simp only [needleIsPrefix, Bool.and_eq_true, decide_eq_true_eq, ih]
      constructor
      · rintro ⟨rfl, t, rfl⟩
        exact ⟨t, rfl⟩
      · rintro ⟨t, ht⟩
        cases ht
        exact ⟨rfl, t, rfl⟩

theorem subList_iff (n h : List Char) :
    subList n h = true ↔ ∃ pre post, h = pre ++ n ++ post := by
  induction h with
  | nil =>
    simp only [subList, List.isEmpty_iff]
    constructor
    · rintro rfl
      exact ⟨[], [], rfl⟩
    · rintro ⟨pre, post, hp⟩
      rcases List.append_eq_nil.mp hp.symm with ⟨hp2, _⟩
      exact (List.append_eq_nil.mp hp2).2
  | cons c cs ih =>
    simp only [subList, Bool.or_eq_true, needleIsPrefix_iff, ih]
    constructor
    · rintro (⟨t, ht⟩ | ⟨pre, post, hp⟩)
      · exact ⟨[], t, by simpa using ht⟩
      · exact ⟨c :: pre, post, by simp [hp]⟩
    · rintro ⟨pre, post, hp⟩
      cases pre with
      | nil => exact Or.inl ⟨post, by simpa using hp⟩
      | cons p ps =>
        simp only [List.cons_append, List.cons.injEq] at hp
        exact Or.inr ⟨ps, post, hp.2⟩

/-- Claim C1 (counterexample). The Disease-Data Matcher does NOT select only
the column whose biomarker-type suffix matches: with disease columns
`["GM_FA", "WM_FA"]` and biomarker key `"WM_FA"`, the code
(`main.py` lines 149-150) selects BOTH columns, because the matching test is
Python substring containment of `"FA"` and `"FA"` occurs in `"GM_FA"` too. -/
theorem diseaseCols_selects_both_not_only_suffix :
    diseaseColsFor ["GM_FA", "WM_FA"] "WM_FA" = ["GM_FA", "WM_FA"] ∧
      ["GM_FA", "WM_FA"] ≠ ["WM_FA"] := by
  constructor
  · rfl
  · decide

/-- Claim C1 (amended). For every biomarker key and every list of
disease-dataset column names, the Disease-Data Matcher selects exactly those
disease columns that CONTAIN the key's biomarker type (the substring after
the key's last underscore) anywhere as a substring — not suffix matching; in
the `["GM_FA", "WM_FA"]` / `"WM_FA"` example both columns are selected. -/
theorem diseaseCols_selected_iff_contains (keys : List String) (b col : String) :
    col ∈ diseaseColsFor keys b ↔
      col ∈ keys ∧ ∃ pre post, col.toList = pre ++ biomarkerTypeOf b ++ post := by
  simp only [diseaseColsFor, List.mem_filter, subList_iff]

/-! ## Insertion-ordered dictionaries

Python `dict` modelled as an association list: insertion keeps order, setting
an existing key overwrites in place. -/

/-- Dictionary lookup (`d[k]` / `d.get(k)`). -/
def alGet {α : Type} : List (String × α) → String → Option α
  | [], _ => none
  | (k, v) :: rest, key => if k = key then some v else alGet rest key

/-- Dictionary assignment `d[k] = v`: overwrite in place, else append. -/
def alSet {α : Type} (key : String) (v : α) : List (String × α) → List (String × α)
  | [] => [(key, v)]
  | (k, w) :: rest => if k = key then (k, v) :: rest else (k, w) :: alSet key v rest

theorem alGet_alSet_self {α : Type} (l : List (String × α)) (k : String) (v : α) :
    alGet (alSet k v l) k = some v := by
  induction l with
  | nil => simp [alSet, alGet]
  | cons p rest ih =>
    obtain ⟨k2, w⟩ := p
    by_cases h : k2 = k
    · simp [alSet, alGet, h]
    · simp [alSet, alGet, h, ih]

theorem alGet_alSet_ne {α : Type} (l : List (String × α)) (k k2 : String) (v : α)
    (h : k2 ≠ k) : alGet (alSet k v l) k2 = alGet l k2 := by
  induction l with
  | nil => simp [alSet, alGet, Ne.symm h]
  | cons p rest ih =>
    obtain ⟨k3, w⟩ := p
    by_cases h3 : k3 = k
    · subst h3
      simp [alSet, alGet, Ne.symm h]
    · simp [alSet, alGet, h3, ih]

/-- The triple-nested Aggregated Results mapping
`tissue → sex → biomarker → value` of `compute_growth_curves`. -/
abbrev Results (R : Type) := List (String × List (String × List (String × R)))

/-- Lookup `results[t][s][b]`, with absent intermediate keys treated as
empty mappings. -/
def lookup3 {R : Type} (res : Results R) (t s b : String) : Option R :=
  alGet ((alGet ((alGet res t).getD []) s).getD []) b

/-- `main.py` lines 220-223: `if t not in results: results[t] = {}` and
`if s not in results[t]: results[t][s] = {}` — ensure the two outer nesting
levels exist. -/
def ensureTS {R : Type} (res : Results R) (t s : String) : Results R :=
  let tm := (alGet res t).getD []
  let sm := (alGet tm s).getD []
  alSet t (alSet s sm tm) res

/-- `main.py` lines 220-223 followed by line 235:
`results[t][s][biomarker] = ...`. -/
def insertTSB {R : Type} (res : Results R) (t s b : String) (v : R) : Results R :=
  let tm := (alGet res t).getD []
  let sm := (alGet tm s).getD []
  alSet t (alSet s (alSet b v sm) tm) res

theorem lookup3_insertTSB_self {R : Type} (res : Results R) (t s b : String) (v : R) :
    lookup3 (insertTSB res t s b v) t s b = some v := by
  simp [lookup3, insertTSB, alGet_alSet_self]

theorem lookup3_ensureTS {R : Type} (res : Results R) (t2 s2 t s b : String) :
    lookup3 (ensureTS res t2 s2) t s b = lookup3 res t s b := by
  by_cases ht : t = t2
  · subst ht
    by_cases hs : s = s2
    · subst hs
      simp [lookup3, ensureTS, alGet_alSet_self]
    · simp [lookup3, ensureTS, alGet_alSet_self, alGet_alSet_ne _ _ _ _ hs]
  · simp [lookup3, ensureTS, alGet_alSet_ne _ _ _ _ ht]

theorem lookup3_insertTSB_ne {R : Type} (res : Results R) (t2 s2 b2 t s b : String)
    (v : R) (h : (t, s, b) ≠ (t2, s2, b2)) :
    lookup3 (insertTSB res t2 s2 b2 v) t s b = lookup3 res t s b := by
  by_cases ht : t = t2
  · subst ht
    by_cases hs : s = s2
    · subst hs
      by_cases hb : b = b2
      · exact absurd (by rw [hb]) h
      · simp [lookup3, insertTSB, alGet_alSet_self, alGet_alSet_ne _ _ _ _ hb]
    · simp [lookup3, insertTSB, alGet_alSet_self, alGet_alSet_ne _ _ _ _ hs]
  · simp [lookup3, insertTSB, alGet_alSet_ne _ _ _ _ ht]

/-! ## The combination loop of `compute_growth_curves` (`main.py` 124-242)

The external R fitting script is opaque (its source is not part of the
repository): it is modelled as an oracle function from the combination
`(sex, tissue, biomarker)` and a with-disease-data flag to `Except Unit R`,
`.error` modelling a raised exception.  The disease payload passed to the
script is fully determined by the (loop-invariant) disease data and the
combination, so it is not an extra oracle argument. -/

/-- One row of the disease spreadsheet: the sex cell, the age cell and the
per-column biomarker cells, each possibly missing (NaN). -/
structure DRow where
  sex : Option String
  age : Option ℚ
  vals : List (String × Option ℚ)
deriving DecidableEq

/-- Cell access `row[col]`; a column absent from the row reads as missing. -/
def dVal (r : DRow) (col : String) : Option ℚ :=
  (alGet r.vals col).getD none

/-- `main.py` lines 161-165: the three-column disease subset
(age, matched value, constant tissue label) for one matched column, with
`dropna()` applied — only rows with both age and value present survive. -/
def diseaseSubset (frows : List DRow) (col : String) (tlabel : String) :
    List (ℚ × ℚ × String) :=
  frows.filterMap (fun r =>
    match r.age, dVal r col with
    | some a, some v => some (a, v, tlabel)
    | _, _ => none)

/-- Which of the three control-flow paths of `main.py` lines 145-217 a
combination takes: the fitting call with disease data (line 189), the
fitting call without disease data (lines 201/210), or the fall-through where
`disease_cols` is non-empty but every matched subset is empty after
missing-value removal (no `else` for line 183's `if disease_data_list:`). -/
inductive Branch where
  | callDisease
  | callPlain
  | fallThrough
deriving DecidableEq

/-- The branch taken for sex label `s` and biomarker `b`, determined by the
optional disease data (rows plus `disease_tissue_map` as an association
list).  Mirrors `main.py` lines 129-134 (`has_disease_data_for_sex`),
147-153 and 183-217. -/
def branchOf (ctx : Option (List DRow × List (String × String))) (s b : String) :
    Branch :=
  match ctx with
  | none => .callPlain
  | some (drows, dmap) =>
    let frows := drows.filter (fun r => decide (r.sex = some s))
    if frows.isEmpty then .callPlain
    else
      let cols := diseaseColsFor (dmap.map Prod.fst) b
      if cols.isEmpty then .callPlain
      else
        let subs := cols.filter
          (fun col => !(diseaseSubset frows col ((alGet dmap col).getD "")).isEmpty)
        if subs.isEmpty then .fallThrough else .callDisease

/-- The opaque external fitting procedure: sex, tissue, biomarker, and
whether disease data is passed. -/
abbrev Oracle (R : Type) := String → String → String → Bool → Except Unit R

/-- Loop state: the Aggregated Results being built, the Python local
variable `result` (which survives across iterations of the loop body —
`none` models "never assigned"), and a log of the fitting calls attempted. -/
structure LoopState (R : Type) where
  results : Results R
  lastResult : Option R
  calls : List ((String × String × String) × Bool)

/-- A fitting call (`run_r_script_from_file`, `main.py` lines 189/201/210)
followed by result structuring (lines 219-238): on success the result is
assigned and stored at `results[t][s][b]`; on an exception the assignment
never happens and the `except` clause (line 240) just continues. -/
def handleCall {R : Type} (f : Oracle R) (st : LoopState R) (s t b : String)
    (w : Bool) : LoopState R :=
  let calls := st.calls ++ [((s, t, b), w)]
  match f s t b w with
  | .error _ => { st with calls := calls }
  | .ok r =>
    { results := insertTSB st.results t s b r
      lastResult := some r
      calls := calls }

/-- One iteration of the combination loop body (`main.py` lines 140-242) for
combination `(s, t, b)`.  In the fall-through path no call is made; lines
220-223 still create the nesting, then line 226 reads the stale `result`
variable — `UnboundLocalError` (caught by line 240) if it was never
assigned, otherwise the previous combination's result is stored. -/
def stepComb {R : Type} (f : Oracle R) (ctx : Option (List DRow × List (String × String)))
    (st : LoopState R) (c : String × String × String) : LoopState R :=
  match c with
  | (s, t, b) =>
    match branchOf ctx s b with
    | .callPlain => handleCall f st s t b false
    | .callDisease => handleCall f st s t b true
    | .fallThrough =>
      match st.lastResult with
      | none => { st with results := ensureTS st.results t s }
      | some r => { st with results := insertTSB st.results t s b r }

/-- The whole combination loop. -/
def runLoop {R : Type} (f : Oracle R) (ctx : Option (List DRow × List (String × String)))
    (combs : List (String × String × String)) (st : LoopState R) : LoopState R :=
  combs.foldl (stepComb f ctx) st

/-- The iteration order of `main.py` lines 124-140: sexes outermost, then
tissue types, then the biomarkers whose `biomarker_tissue_map` entry equals
the tissue. -/
def combsOf (sexLabels tissues biomarkers : List String)
    (btMap : List (String × String)) : List (String × String × String) :=
  (sexLabels.map (fun s =>
    (tissues.map (fun t =>
      (biomarkers.filter (fun b2 => decide (alGet btMap b2 = some t))).map
        (fun b2 => (s, t, b2)))).flatten)).flatten

/-- Disease context for the C2 failing input: one disease row of sex `"F"`
whose `"WM_FA"` cell is missing, and `disease_tissue_map = {"WM_FA": "WM"}`.
The row's sex matches, the column matches the biomarker key `"WM_FA"`, but
after missing-value removal the matched subset is empty. -/
def ctxAllEmpty : Option (List DRow × List (String × String)) :=
  some ([⟨some "F", some 50, [("WM_FA", none)]⟩], [("WM_FA", "WM")])

/-- An oracle that succeeds on every call (so any missing invocation below
is not explained by a fitting failure). -/
def oracleAlwaysOk : Oracle ℕ := fun _ _ _ _ => .ok 0

/-- Claim C2 (failing input).  For the combination `("F", "WM", "WM_FA")`
with disease columns matching but every matched subset empty after
missing-value removal, the code does NOT invoke the external fitting
function at all (no call is logged) and stores NO result for the
combination: `main.py` line 183's `if disease_data_list:` has no `else`, so
control falls through to line 226 where the never-assigned local `result`
raises `UnboundLocalError`, caught by line 240.  The claim instead asserts
the fitter is still invoked without disease data and its result stored. -/
theorem fallthrough_skips_invocation :
    branchOf ctxAllEmpty "F" "WM_FA" = Branch.fallThrough ∧
      (runLoop oracleAlwaysOk ctxAllEmpty [("F", "WM", "WM_FA")] ⟨[], none, []⟩).calls = [] ∧
      lookup3 (runLoop oracleAlwaysOk ctxAllEmpty [("F", "WM", "WM_FA")] ⟨[], none, []⟩).results
        "WM" "F" "WM_FA" = none := by
  refine ⟨rfl, rfl, rfl⟩

/-- Disease context for the C3 counterexample: one disease row of sex `"F"`
whose `"WM_MD"` cell is missing, `disease_tissue_map = {"WM_MD": "WM"}`.
Combination `("F","WM","WM_FA")` takes the plain-call branch (no column
contains `"FA"`); combination `("F","WM","WM_MD")` takes the fall-through
branch (column `"WM_MD"` matches but its subset is empty). -/
def ctxStale : Option (List DRow × List (String × String)) :=
  some ([⟨some "F", some 50, [("WM_MD", none)]⟩], [("WM_MD", "WM")])

/-- Oracle failing exactly on the `"WM_FA"` biomarker. -/
def oracleFailFA : Oracle ℕ := fun _ _ b _ => if b = "WM_FA" then .error () else .ok 7

/-- Oracle succeeding everywhere, agreeing with `oracleFailFA` off `"WM_FA"`. -/
def oracleOkSeven : Oracle ℕ := fun _ _ _ _ => .ok 7

/-- Claim C3 (counterexample).  The first combination's fitting call fails
under `oracleFailFA` and succeeds (with value 7) under `oracleOkSeven`; the
two oracles agree on the second combination.  Yet the second combination's
stored entry differs between the two runs (`none` versus `some 7`), because
the second combination takes the fall-through path and stores the stale
`result` local of the previous combination.  So a subsequent combination is
NOT processed exactly as it would have been had the failing combination
succeeded. -/
theorem stale_result_changes_subsequent_combination :
    oracleFailFA "F" "WM" "WM_MD" false = oracleOkSeven "F" "WM" "WM_MD" false ∧
      oracleFailFA "F" "WM" "WM_MD" true = oracleOkSeven "F" "WM" "WM_MD" true ∧
      lookup3 (runLoop oracleFailFA ctxStale
          [("F", "WM", "WM_FA"), ("F", "WM", "WM_MD")] ⟨[], none, []⟩).results
        "WM" "F" "WM_MD" = none ∧
      lookup3 (runLoop oracleOkSeven ctxStale
          [("F", "WM", "WM_FA"), ("F", "WM", "WM_MD")] ⟨[], none, []⟩).results
        "WM" "F" "WM_MD" = some 7 := by
  refine ⟨rfl, rfl, rfl, rfl⟩

theorem runLoop_no_entry_aux {R : Type} (f : Oracle R)
    (ctx : Option (List DRow × List (String × String))) (t s b : String)
    (hbr : branchOf ctx s b ≠ Branch.fallThrough)
    (herrF : f s t b false = .error ()) (herrT : f s t b true = .error ())
    (combs : List (String × String × String)) :
    ∀ st : LoopState R, lookup3 st.results t s b = none →
      lookup3 (runLoop f ctx combs st).results t s b = none := by
  induction combs with
  | nil => intro st h; exact h
  | cons c rest ih =>
    intro st h
    obtain ⟨s2, t2, b2⟩ := c
    have hstep : lookup3 (stepComb f ctx st (s2, t2, b2)).results t s b = none := by
      by_cases hceq : (s2, t2, b2) = (s, t, b)
      · have hbr2 : branchOf ctx s2 b2 ≠ Branch.fallThrough := by
          injection hceq with h1 h23
          injection h23 with h2 h3
          rw [h1, h3]; exact hbr
        have herrF2 : f s2 t2 b2 false = .error () := by
          injection hceq with h1 h23
          injection h23 with h2 h3
          rw [h1, h2, h3]; exact herrF
        have herrT2 : f s2 t2 b2 true = .error () := by
          injection hceq with h1 h23
          injection h23 with h2 h3
          rw [h1, h2, h3]; exact herrT
        cases hbranch : branchOf ctx s2 b2 with
        | fallThrough => exact absurd hbranch hbr2
        | callPlain => simpa [stepComb, hbranch, handleCall, herrF2] using h
        | callDisease => simpa [stepComb, hbranch, handleCall, herrT2] using h
      · have hne : (t, s, b) ≠ (t2, s2, b2) := by
          intro hh
          injection hh with h1 h23
          injection h23 with h2 h3
          exact hceq (by rw [h1, h2, h3])
        cases hbranch : branchOf ctx s2 b2 with
        | callPlain =>
          cases hf : f s2 t2 b2 false with
          | error e => simpa [stepComb, hbranch, handleCall, hf] using h
          | ok r =>
            simpa [stepComb, hbranch, handleCall, hf,
              lookup3_insertTSB_ne st.results t2 s2 b2 t s b r hne] using h
        | callDisease =>
          cases hf : f s2 t2 b2 true with
          | error e => simpa [stepComb, hbranch, handleCall, hf] using h
          | ok r =>
            simpa [stepComb, hbranch, handleCall, hf,
              lookup3_insertTSB_ne st.results t2 s2 b2 t s b r hne] using h
        | fallThrough =>
          cases hlast : st.lastResult with
          | none => simpa [stepComb, hbranch, hlast, lookup3_ensureTS] using h
          | some r =>
            simpa [stepComb, hbranch, hlast,
              lookup3_insertTSB_ne st.results t2 s2 b2 t s b r hne] using h
    exact ih (stepComb f ctx st (s2, t2, b2)) hstep

/-- Claim C3 (amended).  For every (tissue, sex, biomarker) combination that
actually makes a fitting call (i.e. does not take the all-matched-subsets-
empty fall-through path) and whose call raises, the exception is caught, the
loop runs to completion, and the final Aggregated Results contain no entry
at `results[t][s][b]`.  (The stronger original statement — every subsequent
combination is processed exactly as if the failing one had succeeded — is
false: a later fall-through combination stores the stale `result` local, so
its entry depends on the earlier outcome.) -/
theorem failed_call_leaves_no_entry {R : Type} (f : Oracle R)
    (ctx : Option (List DRow × List (String × String)))
    (combs : List (String × String × String)) (t s b : String)
    (hbr : branchOf ctx s b ≠ Branch.fallThrough)
    (herrF : f s t b false = .error ()) (herrT : f s t b true = .error ()) :
    lookup3 (runLoop f ctx combs ⟨[], none, []⟩).results t s b = none :=
  runLoop_no_entry_aux f ctx t s b hbr herrF herrT combs ⟨[], none, []⟩ rfl

/-- Oracle that always raises, for the C3 witness. -/
def oracleAlwaysFail : Oracle ℕ := fun _ _ _ _ => .error ()

/-- Witness for `failed_call_leaves_no_entry` at a concrete input. -/
theorem failed_call_leaves_no_entry_witness :
    branchOf none "F" "WM_FA" ≠ Branch.fallThrough ∧
      oracleAlwaysFail "F" "WM" "WM_FA" false = .error () ∧
      oracleAlwaysFail "F" "WM" "WM_FA" true = .error () ∧
      lookup3 (runLoop oracleAlwaysFail none [("F", "WM", "WM_FA")] ⟨[], none, []⟩).results
        "WM" "F" "WM_FA" = none :=
  ⟨by decide, rfl, rfl,
    failed_call_leaves_no_entry oracleAlwaysFail none [("F", "WM", "WM_FA")]
      "WM" "F" "WM_FA" (by decide) rfl rfl⟩

/-! ## Age-distribution histogram (`main.py` lines 96-122) and errors -/

/-- The failure modes of a run: the four fatal setup `ValueError`s /
`RuntimeError` of `main` (`main.py` lines 293, 312, 326, 343, 26) and the
`IndexError` raised by `colors[i]` in the histogram loop (line 113).  A
raised, uncaught exception makes the process exit non-zero. -/
inductive RunErr where
  | noCohort
  | noDiseaseBiomarkers
  | noSexColumn
  | noBiomarkerColumns
  | rMissing
  | histIndexError
deriving DecidableEq

/-- One row of the observation spreadsheet: sex cell, age cell, optional
`Cohort` cell, and the biomarker columns.  Ages are assumed present (the
verified properties never exercise a missing age). -/
structure Row where
  sex : Option String
  age : ℚ
  cohort : Option String
  vals : List (String × Option ℚ)
deriving DecidableEq

/-- Cell access for observation rows. -/
def rVal (r : Row) (col : String) : Option ℚ :=
  (alGet r.vals col).getD none

/-- `np.linspace(a, b, n)`: `n` evenly spaced samples from `a` to `b`
inclusive (`main.py` line 105 uses `n = 30`, producing 30 bin EDGES,
i.e. 29 bins). -/
def linspace (a b : ℚ) (n : ℕ) : List ℚ :=
  (List.range n).map (fun i : ℕ => a + (b - a) * (i : ℚ) / ((n : ℚ) - 1))

/-- Minimum of a column (`pandas` `.min()`); defaults to 0 on an empty list,
a case the source never exercises meaningfully. -/
def listMin : List ℚ → ℚ
  | [] => 0
  | h :: t => t.foldl min h

/-- Maximum of a column (`pandas` `.max()`). -/
def listMax : List ℚ → ℚ
  | [] => 0
  | h :: t => t.foldl max h

/-- `main.py` line 105: `bins = np.linspace(all_ages.min(), all_ages.max(), 30)`,
computed once from the WHOLE dataset's ages. -/
def ageBins (ages : List ℚ) : List ℚ :=
  linspace (listMin ages) (listMax ages) 30

/-- `main.py` line 108: `colors = ['#1f77b4', '#ff7f0e', '#2ca02c']`. -/
def colors3 : List String := ["#1f77b4", "#ff7f0e", "#2ca02c"]

/-- The histogram loop of `main.py` lines 109-113: one `plt.hist` call per
sex label, all with the same `bins`, colour `colors[i]` (IndexError when
`i ≥ 3`), legend count `gender_counts[gender]` = number of rows of that sex.
Returns the list of rendered calls `(label, bins, colour, legend count)`. -/
def plotLoop (bins : List ℚ) (rows : List Row) :
    ℕ → List String → Except RunErr (List (String × List ℚ × String × ℕ))
  | _, [] => .ok []
  | i, g :: gs =>
    match colors3[i]? with
    | none => .error .histIndexError
    | some c =>
      match plotLoop bins rows (i + 1) gs with
      | .error e => .error e
      | .ok rest =>
        .ok ((g, bins, c, (rows.filter (fun r => decide (r.sex = some g))).length) :: rest)

theorem plotLoop_ok_of_le (bins : List ℚ) (rows : List Row) :
    ∀ (gs : List String) (i : ℕ), i + gs.length ≤ 3 →
      ∃ out, plotLoop bins rows i gs = .ok out := by
  intro gs
  induction gs with
  | nil => intro i _; exact ⟨[], rfl⟩
  | cons g rest ih =>
    intro i hlen
    have hi : i < 3 := by
      simp only [List.length_cons] at hlen
      omega
    have hc : ∃ c, colors3[i]? = some c := by
      interval_cases i
      · exact ⟨"#1f77b4", rfl⟩
      · exact ⟨"#ff7f0e", rfl⟩
      · exact ⟨"#2ca02c", rfl⟩
    obtain ⟨c, hc⟩ := hc
    have hrest : (i + 1) + rest.length ≤ 3 := by
      simp only [List.length_cons] at hlen
      omega
    obtain ⟨out, hout⟩ := ih (i + 1) hrest
    exact ⟨(g, bins, c, (rows.filter (fun r => decide (r.sex = some g))).length) :: out,
      by simp [plotLoop, hc, hout]⟩

theorem plotLoop_error_of_gt (bins : List ℚ) (rows : List Row) :
    ∀ (gs : List String) (i : ℕ), 3 < i + gs.length → gs ≠ [] →
      plotLoop bins rows i gs = .error .histIndexError := by
  intro gs
  induction gs with
  | nil => intro i _ hne; exact absurd rfl hne
  | cons g rest ih =>
    intro i hlen _
    cases hc : colors3[i]? with
    | none => simp [plotLoop, hc]
    | some c =>
      have hi : i < 3 := by
        by_contra hge
        rw [List.getElem?_eq_none (by simpa [colors3] using Nat.le_of_not_lt hge)] at hc
        cases hc
      have hrest : rest ≠ [] := by
        intro hr
        subst hr
        simp only [List.length_cons, List.length_nil] at hlen
        omega
      have hlen2 : 3 < (i + 1) + rest.length := by
        simp only [List.length_cons] at hlen
        omega
      simp [plotLoop, hc, ih (i + 1) hlen2 hrest]

theorem plotLoop_calls (bins : List ℚ) (rows : List Row) :
    ∀ (gs : List String) (i : ℕ) out, plotLoop bins rows i gs = .ok out →
      ∀ e ∈ out, e.2.1 = bins ∧
        e.2.2.2 = (rows.filter (fun r => decide (r.sex = some e.1))).length := by
  intro gs
  induction gs with
  | nil =>
    intro i out hout e he
    simp only [plotLoop] at hout
    cases hout
    simp at he
  | cons g rest ih =>
    intro i out hout e he
    simp only [plotLoop] at hout
    cases hc : colors3[i]? with
    | none => rw [hc] at hout; cases hout
    | some c =>
      rw [hc] at hout
      cases hrec : plotLoop bins rows (i + 1) rest with
      | error er => rw [hrec] at hout; cases hout
      | ok rest2 =>
        rw [hrec] at hout
        cases hout
        rcases List.mem_cons.mp he with h1 | h2
        · subst h1
          exact ⟨rfl, rfl⟩
        · exact ih (i + 1) rest2 hrec e h2

theorem linspace_getD (a b : ℚ) (n i : ℕ) (hi : i < n) :
    (linspace a b n).getD i 0 = a + (b - a) * i / ((n : ℚ) - 1) := by
  have h1 : (linspace a b n)[i]? = some (a + (b - a) * i / ((n : ℚ) - 1)) := by
    rw [linspace, List.getElem?_map, List.getElem?_range hi]
    rfl
  simp [List.getD_eq_getElem?_getD, h1]

/-- The two-sex, ages-10-to-80 dataset of the claim's example. -/
def rowsAges10to80 : List Row :=
  [⟨some "F", 10, none, []⟩, ⟨some "M", 80, none, []⟩]

/-- Claim C5 (counterexample).  `np.linspace(min, max, 30)` produces 30 bin
EDGES, i.e. 29 bins — not the 30 equal-width bins the claim states.  On the
dataset with ages 10-80 over two sex labels, the number of bins
(edges minus one) is 29, not 30. -/
theorem bins_are_29_not_30 :
    (ageBins (rowsAges10to80.map Row.age)).length - 1 = 29 ∧
      (ageBins (rowsAges10to80.map Row.age)).length - 1 ≠ 30 := by
  constructor
  · rfl
  · decide

/-- Claim C5 (amended, as a predicate on the dataset and sex labels).  The
age-distribution plot uses a single common binning of 29 equal-width bins
given by 30 evenly spaced edges spanning the minimum-to-maximum observed age
over the whole dataset; every per-sex histogram call receives those same
edges, and the per-sex legend count equals the number of rows of that sex. -/
def CommonBinning (rows : List Row) (labels : List String) : Prop :=
  (ageBins (rows.map Row.age)).length = 30 ∧
  (ageBins (rows.map Row.age)).getD 0 0 = listMin (rows.map Row.age) ∧
  (ageBins (rows.map Row.age)).getD 29 0 = listMax (rows.map Row.age) ∧
  (∀ i : ℕ, i + 1 < 30 →
    (ageBins (rows.map Row.age)).getD (i + 1) 0 - (ageBins (rows.map Row.age)).getD i 0 =
      (listMax (rows.map Row.age) - listMin (rows.map Row.age)) / 29) ∧
  (∀ out, plotLoop (ageBins (rows.map Row.age)) rows 0 labels = .ok out →
    ∀ e ∈ out, e.2.1 = ageBins (rows.map Row.age) ∧
      e.2.2.2 = (rows.filter (fun r => decide (r.sex = some e.1))).length)

/-- Claim C5 (amended).  For every input dataset with at least one row and
every list of sex labels, the common-binning property `CommonBinning` holds:
one shared 30-edge (29 equal-width bins) binning spanning the observed age
range, identical for every per-sex histogram call, with per-sex legend
counts equal to the per-sex row counts. -/
theorem age_distribution_common_binning (rows : List Row) (labels : List String)
    (hne : rows ≠ []) : CommonBinning rows labels := by
  refine ⟨rfl, ?_, ?_, ?_, ?_⟩
  · rw [ageBins, linspace_getD _ _ 30 0 (by omega)]
    push_cast
    ring
  · rw [ageBins, linspace_getD _ _ 30 29 (by omega)]
    push_cast
    ring
  · intro i hi
    rw [ageBins, linspace_getD _ _ 30 (i + 1) hi, linspace_getD _ _ 30 i (by omega)]
    push_cast
    ring
  · intro out hout e he
    exact plotLoop_calls _ rows labels 0 out hout e he

/-- Witness for `age_distribution_common_binning` at the concrete
ages-10-to-80 dataset. -/
theorem age_distribution_common_binning_witness :
    rowsAges10to80 ≠ [] ∧ CommonBinning rowsAges10to80 ["F", "M"] :=
  ⟨by decide, age_distribution_common_binning rowsAges10to80 ["F", "M"] (by decide)⟩

/-! ## `main` (`main.py` lines 252-375): setup phase and the full run -/

/-- `col.lower()` as a character list. -/
def lowerChars (s : String) : List Char :=
  s.toList.map Char.toLower

/-- `main.py` lines 323-324: the column test
`"sex" in col.lower() or "gender" in col.lower()`. -/
def sexColPred (c : String) : Bool :=
  subList "sex".toList (lowerChars c) || subList "gender".toList (lowerChars c)

/-- `main.py` lines 323-324: `next((col for col in input_data.columns if
...), None)` — the FIRST matching column in column order, else `None`. -/
def findSexCol (cols : List String) : Option String :=
  cols.find? sexColPred

/-- `suf` is a suffix of `l` (Python `str.endswith`). -/
def isSuffix (suf l : List Char) : Bool :=
  needleIsPrefix suf.reverse l.reverse

/-- `main.py` lines 303-309: disease columns ending with `"_{biomarker}"`
for some requested biomarker type, in biomarker-type-major order. -/
def diseaseBiosOf (btypes dcols : List String) : List String :=
  (btypes.map (fun bt =>
    dcols.filter (fun c => isSuffix ("_" ++ bt).toList c.toList))).flatten

/-- `main.py` lines 315-319: `disease_tissue_map[disease_col] =
disease_col.split('_')[0]`. -/
def diseaseMapOf (dbios : List String) : List (String × String) :=
  dbios.map (fun c => (c, String.mk ((splitChar '_' c.toList).headD [])))

/-- `main.py` lines 329-340: candidate column names `f"{tissue}_{biomarker}"`
in tissue-major order, keeping those present in the input columns; returns
(`biomarker_columns`, `biomarker_tissue_map`). -/
def buildBioCols (tissues btypes cols : List String) :
    List String × List (String × String) :=
  let names := (tissues.map (fun t =>
    btypes.map (fun bt => (t, t ++ "_" ++ bt)))).flatten
  let present := names.filter (fun p => decide (p.2 ∈ cols))
  (present.map Prod.snd, present.map (fun p => (p.2, p.1)))

/-- `main.py` line 350:
`input_data.dropna(subset=[sex_column] + biomarker_columns)`. -/
def dropNa (bioCols : List String) (rows : List Row) : List Row :=
  rows.filter (fun r => r.sex.isSome && bioCols.all (fun c => (rVal r c).isSome))

/-- `pandas.Series.unique()` (`main.py` line 351): distinct values in order
of first occurrence. -/
def dedupFirst (seen : List String) : List String → List String
  | [] => []
  | x :: xs =>
    if x ∈ seen then dedupFirst seen xs
    else x :: dedupFirst (x :: seen) xs

/-- The inputs of a run: the observation spreadsheet (columns and rows), the
CLI arguments (tissue types after defaulting, biomarker types, optional
cohort-group filter, optional disease spreadsheet), and whether the R
runtime is installed. -/
structure MainInput where
  inputCols : List String
  inputRows : List Row
  tissueTypes : List String
  biomarkerTypes : List String
  group : Option (List String)
  disease : Option (List String × List DRow)
  rInstalled : Bool
deriving DecidableEq

/-- Everything the compute stage consumes, as assembled by `main`'s setup
phase. -/
structure SetupData where
  rows : List Row
  bioCols : List String
  btMap : List (String × String)
  diseaseCtx : Option (List DRow × List (String × String))
  sexLabels : List String
deriving DecidableEq

/-- `main.py` lines 291-294: the optional cohort-group row filter; raises
`ValueError` when a group is requested but no `Cohort` column exists
(pandas `isin`: a missing cohort cell never matches). -/
def groupRows (inp : MainInput) : Except RunErr (List Row) :=
  match inp.group with
  | some g =>
    if "Cohort" ∈ inp.inputCols then
      .ok (inp.inputRows.filter (fun r =>
        match r.cohort with
        | some c => decide (c ∈ g)
        | none => false))
    else .error .noCohort
  | none => .ok inp.inputRows

/-- `main.py` lines 296-320: optional disease-data verification, producing
the disease rows and `disease_tissue_map`; raises `ValueError` when no
disease column matches any requested biomarker type. -/
def diseaseCtxOf (inp : MainInput) :
    Except RunErr (Option (List DRow × List (String × String))) :=
  match inp.disease with
  | some (dcols, drows) =>
    if (diseaseBiosOf inp.biomarkerTypes dcols).isEmpty then
      .error .noDiseaseBiomarkers
    else .ok (some (drows, diseaseMapOf (diseaseBiosOf inp.biomarkerTypes dcols)))
  | none => .ok none

/-- The setup phase of `main` (`main.py` lines 288-354), into which the
opaque fitting oracle never enters: cohort-group filter (291-294), disease
biomarker verification and tissue map (296-320), sex-column detection
(322-326), biomarker-column construction (328-348), missing-value removal
and sex labels (350-351), and the R-installation check (353-354), each
failure modelling the corresponding raised exception. -/
def mainSetup (inp : MainInput) : Except RunErr SetupData :=
  match groupRows inp with
  | .error e => .error e
  | .ok rows1 =>
    match diseaseCtxOf inp with
    | .error e => .error e
    | .ok dctx =>
      match findSexCol inp.inputCols with
      | none => .error .noSexColumn
      | some _ =>
        if (buildBioCols inp.tissueTypes inp.biomarkerTypes inp.inputCols).1.isEmpty then
          .error .noBiomarkerColumns
        else if inp.rInstalled then
          .ok ⟨dropNa (buildBioCols inp.tissueTypes inp.biomarkerTypes inp.inputCols).1 rows1,
               (buildBioCols inp.tissueTypes inp.biomarkerTypes inp.inputCols).1,
               (buildBioCols inp.tissueTypes inp.biomarkerTypes inp.inputCols).2,
               dctx,
               dedupFirst [] ((dropNa (buildBioCols inp.tissueTypes inp.biomarkerTypes
                  inp.inputCols).1 rows1).filterMap Row.sex)⟩
        else .error .rMissing

/-- A full run of `main`: setup, then `compute_growth_curves` (histogram
first — `main.py` lines 101-122 — then the combination loop), then pickling
and report generation, which are total in this model.  The process exits
non-zero exactly when the result is `.error`. -/
def mainModel {R : Type} (f : Oracle R) (inp : MainInput) :
    Except RunErr (LoopState R) :=
  match mainSetup inp with
  | .error e => .error e
  | .ok sd =>
    match plotLoop (ageBins (sd.rows.map Row.age)) sd.rows 0 sd.sexLabels with
    | .error e => .error e
    | .ok _ =>
      .ok (runLoop f sd.diseaseCtx
        (combsOf sd.sexLabels inp.tissueTypes sd.bioCols sd.btMap) ⟨[], none, []⟩)

theorem mainSetup_ok_elim (inp : MainInput) (sd : SetupData)
    (h : mainSetup inp = .ok sd) :
    (∃ c, findSexCol inp.inputCols = some c) ∧
      (buildBioCols inp.tissueTypes inp.biomarkerTypes inp.inputCols).1 ≠ [] ∧
      inp.rInstalled = true ∧
      sd.bioCols = (buildBioCols inp.tissueTypes inp.biomarkerTypes inp.inputCols).1 ∧
      (∃ rows1, sd.rows = dropNa sd.bioCols rows1) ∧
      sd.sexLabels = dedupFirst [] (sd.rows.filterMap Row.sex) := by
  unfold mainSetup at h
  cases hgr : groupRows inp with
  | error e => rw [hgr] at h; cases h
  | ok rows1 =>
    rw [hgr] at h
    cases hdc : diseaseCtxOf inp with
    | error e => rw [hdc] at h; cases h
    | ok dctx =>
      rw [hdc] at h
      cases hsex : findSexCol inp.inputCols with
      | none => rw [hsex] at h; cases h
      | some c =>
        rw [hsex] at h
        simp only at h
        cases hbio : (buildBioCols inp.tissueTypes inp.biomarkerTypes inp.inputCols).1.isEmpty with
        | true => rw [hbio] at h; simp at h
        | false =>
          rw [hbio] at h
          cases hr : inp.rInstalled with
          | false => rw [hr] at h; simp at h
          | true =>
            rw [hr] at h
            simp only [if_true, Bool.false_eq_true, if_false] at h
            injection h with h2
            subst h2
            refine ⟨⟨c, rfl⟩, ?_, rfl, rfl, ⟨rows1, rfl⟩, rfl⟩
            intro hnil
            rw [hnil] at hbio
            simp at hbio

theorem find?_first_decomp {α : Type} {p : α → Bool} :
    ∀ (l : List α) (a : α), l.find? p = some a →
      ∃ pre post, l = pre ++ a :: post ∧ ∀ x ∈ pre, p x = false := by
  intro l
  induction l with
  | nil => intro a h; cases h
  | cons x xs ih =>
    intro a h
    by_cases hx : p x = true
    · rw [List.find?_cons_of_pos _ hx] at h
      injection h with h2
      subst h2
      exact ⟨[], xs, rfl, by intro y hy; cases hy⟩
    · rw [List.find?_cons_of_neg _ hx] at h
      obtain ⟨pre, post, hsplit, hpre⟩ := ih a h
      refine ⟨x :: pre, post, by rw [hsplit]; rfl, ?_⟩
      intro y hy
      rcases List.mem_cons.mp hy with h1 | h2
      · subst h1
        exact Bool.not_eq_true _ ▸ (by simpa using hx)
      · exact hpre y h2

/-- Claim C10.  `main` selects as the sex column the FIRST input-data column
(in column order) whose lowercased name contains `"sex"` or `"gender"` as a
substring; and (provided the earlier cohort-group and disease-data checks
pass) the setup phase raises `ValueError` ("No column found for sex/gender")
exactly when no column name matches. -/
theorem sex_column_selection (inp : MainInput)
    (hgr : ∃ rows1, groupRows inp = .ok rows1)
    (hdc : ∃ dctx, diseaseCtxOf inp = .ok dctx) :
    (∀ c, sexColPred c = true ↔
        ((∃ pre post, lowerChars c = pre ++ "sex".toList ++ post) ∨
          ∃ pre post, lowerChars c = pre ++ "gender".toList ++ post)) ∧
      (∀ c, findSexCol inp.inputCols = some c →
        sexColPred c = true ∧
          ∃ pre post, inp.inputCols = pre ++ c :: post ∧
            ∀ x ∈ pre, sexColPred x = false) ∧
      (mainSetup inp = .error .noSexColumn ↔ findSexCol inp.inputCols = none) := by
  obtain ⟨rows1, hgr⟩ := hgr
  obtain ⟨dctx, hdc⟩ := hdc
  refine ⟨?_, ?_, ?_, ?_⟩
  · intro c
    simp [sexColPred, Bool.or_eq_true, subList_iff]
  · intro c hc
    exact ⟨List.find?_some hc, find?_first_decomp inp.inputCols c hc⟩
  · intro herr
    cases hsex : findSexCol inp.inputCols with
    | none => rfl
    | some c =>
      rw [mainSetup, hgr, hdc, hsex] at herr
      simp only at herr
      by_cases hbio : (buildBioCols inp.tissueTypes inp.biomarkerTypes inp.inputCols).1.isEmpty = true
      · rw [if_pos hbio] at herr
        cases herr
      · rw [if_neg hbio] at herr
        cases hr : inp.rInstalled with
        | true => rw [hr] at herr; simp at herr
        | false => rw [hr] at herr; simp at herr
  · intro hnone
    rw [mainSetup, hgr, hdc, hnone]

/-- Concrete input whose second column is the first sex/gender match. -/
def inpGenderCols : MainInput :=
  { inputCols := ["Age", "Gender", "Sex", "WM_FA"]
    inputRows := [⟨some "F", 50, none, [("WM_FA", some 1)]⟩]
    tissueTypes := ["WM"]
    biomarkerTypes := ["FA"]
    group := none
    disease := none
    rInstalled := true }

/-- Witness for `sex_column_selection` at a concrete input: `"Gender"` is
selected (first match in column order), and the no-sex-column error does not
fire. -/
theorem sex_column_selection_witness :
    groupRows inpGenderCols = .ok inpGenderCols.inputRows ∧
      diseaseCtxOf inpGenderCols = .ok none ∧
      findSexCol inpGenderCols.inputCols = some "Gender" ∧
      sexColPred "Gender" = true ∧
      (mainSetup inpGenderCols = .error .noSexColumn ↔
        findSexCol inpGenderCols.inputCols = none) :=
  ⟨rfl, rfl, rfl,
    ((sex_column_selection inpGenderCols ⟨_, rfl⟩ ⟨_, rfl⟩).2.1 "Gender" rfl).1,
    (sex_column_selection inpGenderCols ⟨_, rfl⟩ ⟨_, rfl⟩).2.2⟩

/-- Claim C6 (amended).  Fatal setup errors — no sex/gender column, no
expected biomarker column present, or R not installed — make the run end in
an uncaught exception (non-zero exit) with a result independent of the
fitting oracle (so no combination is ever attempted); conversely, when setup
succeeds AND the dataset has at most three distinct sex labels, the run
exits zero (`.ok`) for EVERY oracle behaviour, i.e. regardless of how many
individual combinations failed. -/
theorem exit_code_semantics {R : Type} (inp : MainInput) (f g : Oracle R) :
    ((findSexCol inp.inputCols = none ∨
        (buildBioCols inp.tissueTypes inp.biomarkerTypes inp.inputCols).1 = [] ∨
        inp.rInstalled = false) →
      (mainModel f inp).isOk = false ∧ mainModel f inp = mainModel g inp) ∧
    (∀ sd, mainSetup inp = .ok sd → sd.sexLabels.length ≤ 3 →
      (mainModel f inp).isOk = true) := by
  constructor
  · intro hcond
    have herr : ∃ e, mainSetup inp = .error e := by
      cases hms : mainSetup inp with
      | error e => exact ⟨e, rfl⟩
      | ok sd =>
        obtain ⟨⟨c, hsex⟩, hbio, hr, _⟩ := mainSetup_ok_elim inp sd hms
        rcases hcond with h | h | h
        · rw [h] at hsex; cases hsex
        · exact absurd h hbio
        · rw [hr] at h; cases h
    obtain ⟨e, he⟩ := herr
    constructor
    · simp [mainModel, he, Except.isOk, Except.toBool]
    · simp [mainModel, he]
  · intro sd hsd hlen
    obtain ⟨out, hout⟩ := plotLoop_ok_of_le (ageBins (sd.rows.map Row.age)) sd.rows
      sd.sexLabels 0 (by omega)
    simp [mainModel, hsd, hout, Except.isOk, Except.toBool]

/-- Concrete input with four distinct sex labels and otherwise valid setup. -/
def inpFourLabels : MainInput :=
  { inputCols := ["Sex", "Age", "WM_FA"]
    inputRows :=
      [⟨some "A", 10, none, [("WM_FA", some 1)]⟩,
       ⟨some "B", 20, none, [("WM_FA", some 1)]⟩,
       ⟨some "C", 30, none, [("WM_FA", some 1)]⟩,
       ⟨some "D", 40, none, [("WM_FA", some 1)]⟩]
    tissueTypes := ["WM"]
    biomarkerTypes := ["FA"]
    group := none
    disease := none
    rInstalled := true }

/-- Claim C6 (counterexample).  Setup succeeds on `inpFourLabels` (sex
column found, biomarker column present, R installed), no fitting call ever
fails (the oracle always succeeds), and yet the run exits non-zero: the
histogram loop raises IndexError because there are four sex labels and only
three colours.  So "when setup succeeds the process exits zero regardless of
how many individual combinations failed" is false as stated. -/
theorem setup_success_but_nonzero_exit :
    (mainSetup inpFourLabels).isOk = true ∧
      mainModel oracleAlwaysOk inpFourLabels = .error .histIndexError := by
  constructor
  · rfl
  · rfl

/-- Concrete input with no sex/gender column. -/
def inpNoSexCol : MainInput :=
  { inputCols := ["Age", "WM_FA"]
    inputRows := []
    tissueTypes := ["WM"]
    biomarkerTypes := ["FA"]
    group := none
    disease := none
    rInstalled := true }

/-- The setup data produced for `inpGenderCols`. -/
def sdGenderCols : SetupData :=
  ⟨inpGenderCols.inputRows, ["WM_FA"], [("WM_FA", "WM")], none, ["F"]⟩

/-- Witness for `exit_code_semantics`: a fatal-error input (no sex column)
and a successful input, with both branches of the theorem applied. -/
theorem exit_code_semantics_witness :
    findSexCol inpNoSexCol.inputCols = none ∧
      (mainModel oracleAlwaysOk inpNoSexCol).isOk = false ∧
      mainSetup inpGenderCols = .ok sdGenderCols ∧
      sdGenderCols.sexLabels.length ≤ 3 ∧
      (mainModel oracleAlwaysOk inpGenderCols).isOk = true :=
  ⟨by rfl,
    ((exit_code_semantics inpNoSexCol oracleAlwaysOk oracleAlwaysOk).1
      (Or.inl (by rfl))).1,
    by rfl,
    by decide,
    (exit_code_semantics inpGenderCols oracleAlwaysOk oracleAlwaysOk).2
      sdGenderCols (by rfl) (by decide)⟩

/-- Claim C9.  When the (filtered) dataset carries more than three distinct
sex labels, the histogram loop of `compute_growth_curves` indexes
`colors[i]` with `i ≥ 3` into the three-element colour list, raising an
uncaught IndexError that aborts the whole run (non-zero result) before any
model fitting is attempted — the conclusion holds for EVERY fitting oracle
`f`, so the oracle is never consulted. -/
theorem four_sex_labels_abort_run {R : Type} (f : Oracle R) (inp : MainInput)
    (sd : SetupData) (h : mainSetup inp = .ok sd)
    (h4 : 3 < sd.sexLabels.length) :
    mainModel f inp = .error .histIndexError := by
  have hplot := plotLoop_error_of_gt (ageBins (sd.rows.map Row.age)) sd.rows
    sd.sexLabels 0 (by omega)
    (by intro hnil; rw [hnil] at h4; simp at h4)
  simp [mainModel, h, hplot]

/-- The setup data produced for `inpFourLabels`. -/
def sdFourLabels : SetupData :=
  ⟨inpFourLabels.inputRows, ["WM_FA"], [("WM_FA", "WM")], none, ["A", "B", "C", "D"]⟩

/-- Witness for `four_sex_labels_abort_run` at the concrete four-label
input. -/
theorem four_sex_labels_abort_run_witness :
    mainSetup inpFourLabels = .ok sdFourLabels ∧
      3 < sdFourLabels.sexLabels.length ∧
      mainModel oracleAlwaysFail inpFourLabels = .error .histIndexError :=
  ⟨by rfl, by decide,
    four_sex_labels_abort_run oracleAlwaysFail inpFourLabels sdFourLabels
      (by rfl) (by decide)⟩

/-- Claim C7.  Every row surviving setup has a present sex value and a
present value in every required biomarker column (so rows with missing sex
or missing required biomarker values are excluded before the compute stage,
which receives exactly `sd.rows`), and the exclusion filter is idempotent:
filtering the already-filtered rows changes nothing. -/
theorem missing_value_filter (inp : MainInput) (sd : SetupData)
    (h : mainSetup inp = .ok sd) :
    (∀ r ∈ sd.rows, r.sex.isSome = true ∧
        ∀ c ∈ sd.bioCols, (rVal r c).isSome = true) ∧
      dropNa sd.bioCols sd.rows = sd.rows := by
  obtain ⟨_, _, _, _, ⟨rows1, hrows⟩, _⟩ := mainSetup_ok_elim inp sd h
  constructor
  · intro r hr
    rw [hrows, dropNa] at hr
    obtain ⟨_, hp⟩ := List.mem_filter.mp hr
    simp only [Bool.and_eq_true, List.all_eq_true] at hp
    exact ⟨hp.1, fun c hc => hp.2 c hc⟩
  · rw [hrows, dropNa, dropNa, List.filter_filter]
    congr 1
    funext r
    cases hp : (r.sex.isSome && sd.bioCols.all fun c => (rVal r c).isSome) <;>
      simp [hp]

/-- Concrete input for the C7 witness: one complete row, one row with
missing sex, one row with a missing biomarker value. -/
def inpMixedRows : MainInput :=
  { inputCols := ["Sex", "Age", "WM_FA"]
    inputRows :=
      [⟨some "F", 50, none, [("WM_FA", some 1)]⟩,
       ⟨none, 60, none, [("WM_FA", some 2)]⟩,
       ⟨some "M", 70, none, [("WM_FA", none)]⟩]
    tissueTypes := ["WM"]
    biomarkerTypes := ["FA"]
    group := none
    disease := none
    rInstalled := true }

/-- The setup data produced for `inpMixedRows`: only the complete row
survives. -/
def sdMixedRows : SetupData :=
  ⟨[⟨some "F", 50, none, [("WM_FA", some 1)]⟩], ["WM_FA"], [("WM_FA", "WM")],
    none, ["F"]⟩

/-- Witness for `missing_value_filter` at the concrete mixed input. -/
theorem missing_value_filter_witness :
    mainSetup inpMixedRows = .ok sdMixedRows ∧
      dropNa sdMixedRows.bioCols sdMixedRows.rows = sdMixedRows.rows :=
  ⟨by rfl, (missing_value_filter inpMixedRows sdMixedRows (by rfl)).2⟩

/-! ## Report parameter tables (`generate_output_report.py` lines 124-171)

Model-parameter leaves store already-rendered strings (the report's float
formatting — `:.2f`, `:.6f`, `str(...[0])` — is not the subject of any
verified property); `none` models R `NULL`/`None` values. -/

/-- Python string comparison: lexicographic by code point. -/
def lexLe : List Char → List Char → Bool
  | [], _ => true
  | _ :: _, [] => false
  | a :: as, b :: bs => if a = b then lexLe as bs else decide (a < b)

/-- `a <= b` on strings, as used by Python `sorted`. -/
def strLe (a b : String) : Bool :=
  lexLe a.toList b.toList

/-- Ordered insertion (auxiliary to the model of Python `sorted`). -/
def insOrd (le : String → String → Bool) (a : String) : List String → List String
  | [] => [a]
  | b :: bs => if le a b then a :: b :: bs else b :: insOrd le a bs

/-- Python `sorted` on strings, modelled as insertion sort (stable, and
agrees with any correct sort on duplicate-free input). -/
def insSort (le : String → String → Bool) : List String → List String
  | [] => []
  | a :: as => insOrd le a (insSort le as)

/-- `sorted(...)` over strings. -/
def sortStrings (l : List String) : List String :=
  insSort strLe l

theorem lexLe_total (a : List Char) : ∀ b, lexLe a b = true ∨ lexLe b a = true := by
  induction a with
  | nil => intro b; exact Or.inl rfl
  | cons x xs ih =>
    intro b
    cases b with
    | nil => exact Or.inr rfl
    | cons y ys =>
      by_cases hxy : x = y
      · subst hxy
        simp only [lexLe, if_pos rfl]
        exact ih ys
      · rcases lt_trichotomy x y with h | h | h
        · exact Or.inl (by simp [lexLe, hxy, h])
        · exact absurd h hxy
        · exact Or.inr (by simp [lexLe, Ne.symm hxy, h])

theorem lexLe_trans (a : List Char) :
    ∀ b c, lexLe a b = true → lexLe b c = true → lexLe a c = true := by
  induction a with
  | nil => intro b c _ _; rfl
  | cons x xs ih =>
    intro b c hab hbc
    cases b with
    | nil => simp [lexLe] at hab
    | cons y ys =>
      cases c with
      | nil => simp [lexLe] at hbc
      | cons z zs =>
        by_cases hxy : x = y <;> by_cases hyz : y = z
        · subst hxy; subst hyz
          simp only [lexLe, if_pos rfl] at hab hbc ⊢
          exact ih ys zs hab hbc
        · subst hxy
          simp only [lexLe, if_neg hyz] at hbc
          simp [lexLe, hyz, decide_eq_true_eq.mp hbc]
        · subst hyz
          simp only [lexLe, if_neg hxy] at hab
          simp [lexLe, hxy, decide_eq_true_eq.mp hab]
        · simp only [lexLe, if_neg hxy] at hab
          simp only [lexLe, if_neg hyz] at hbc
          have hxz : x < z :=
            lt_trans (decide_eq_true_eq.mp hab) (decide_eq_true_eq.mp hbc)
          simp [lexLe, ne_of_lt hxz, hxz]

theorem strLe_total (a b : String) : strLe a b = true ∨ strLe b a = true :=
  lexLe_total a.toList b.toList

theorem strLe_trans (a b c : String) (h1 : strLe a b = true) (h2 : strLe b c = true) :
    strLe a c = true :=
  lexLe_trans a.toList b.toList c.toList h1 h2

theorem mem_insOrd (le : String → String → Bool) (a x : String) (l : List String) :
    x ∈ insOrd le a l ↔ x = a ∨ x ∈ l := by
  induction l with
  | nil => simp [insOrd]
  | cons b bs ih =>
    by_cases hab : le a b = true
    · simp [insOrd, hab]
    · simp only [insOrd, if_neg hab, List.mem_cons, ih]
      tauto

theorem mem_insSort (le : String → String → Bool) (x : String) (l : List String) :
    x ∈ insSort le l ↔ x ∈ l := by
  induction l with
  | nil => simp [insSort]
  | cons a as ih =>
    simp [insSort, mem_insOrd, ih]

theorem insOrd_pairwise (a : String) (l : List String)
    (h : l.Pairwise (fun x y => strLe x y = true)) :
    (insOrd strLe a l).Pairwise (fun x y => strLe x y = true) := by
  induction l with
  | nil => simp [insOrd]
  | cons b bs ih =>
    rcases List.pairwise_cons.mp h with ⟨hb, hbs⟩
    by_cases hab : strLe a b = true
    · rw [insOrd, if_pos hab]
      refine List.pairwise_cons.mpr ⟨?_, h⟩
      intro x hx
      rcases List.mem_cons.mp hx with h1 | h2
      · subst h1; exact hab
      · exact strLe_trans a b x hab (hb x h2)
    · rw [insOrd, if_neg hab]
      refine List.pairwise_cons.mpr ⟨?_, ih hbs⟩
      intro x hx
      rcases (mem_insOrd strLe a x bs).mp hx with h1 | h2
      · rw [h1]
        rcases strLe_total a b with h3 | h3
        · exact absurd h3 hab
        · exact h3
      · exact hb x h2

theorem sortStrings_pairwise (l : List String) :
    (sortStrings l).Pairwise (fun x y => strLe x y = true) := by
  induction l with
  | nil => exact List.Pairwise.nil
  | cons a as ih => exact insOrd_pairwise a (insSort strLe as) ih

theorem mem_dedupFirst (x : String) :
    ∀ (l seen : List String), x ∈ dedupFirst seen l ↔ x ∈ l ∧ x ∉ seen := by
  intro l
  induction l with
  | nil => intro seen; simp [dedupFirst]
  | cons y ys ih =>
    intro seen
    by_cases hy : y ∈ seen
    · rw [dedupFirst, if_pos hy]
      rw [ih seen]
      constructor
      · rintro ⟨h1, h2⟩
        exact ⟨List.mem_cons.mpr (Or.inr h1), h2⟩
      · rintro ⟨h1, h2⟩
        rcases List.mem_cons.mp h1 with h3 | h3
        · subst h3; exact absurd hy h2
        · exact ⟨h3, h2⟩
    · rw [dedupFirst, if_neg hy]
      constructor
      · intro hmem
        rcases List.mem_cons.mp hmem with h1 | h1
        · subst h1; exact ⟨List.mem_cons_self x ys, hy⟩
        · rcases (ih (y :: seen)).mp h1 with ⟨h2, h3⟩
          exact ⟨List.mem_cons.mpr (Or.inr h2), fun hs => h3 (List.mem_cons.mpr (Or.inr hs))⟩
      · rintro ⟨h1, h2⟩
        rcases List.mem_cons.mp h1 with h3 | h3
        · subst h3; exact List.mem_cons_self x _
        · by_cases hxy : x = y
          · subst hxy; exact List.mem_cons_self x _
          · exact List.mem_cons.mpr (Or.inr ((ih (y :: seen)).mpr
              ⟨h3, by simp [hxy, h2]⟩))

/-- The model-parameters dictionary stored at
`results[t][s][b]["model_parameters"]` (`main.py` lines 225-233), with
numeric leaves pre-rendered as strings: `model_type`, `aic`, the four
distribution parameters, and the coefficient mapping. -/
structure MParams where
  modelType : String
  aic : Option String
  mu : Option String
  sigma : Option String
  nu : Option String
  tau : Option String
  coefs : List (String × String)
deriving DecidableEq

/-- `params[gender]` of `generate_output_report.py` lines 128-132: `None`
when the biomarker is absent for that sex. -/
def pget (params : List (String × Option MParams)) (g : String) : Option MParams :=
  (alGet params g).getD none

/-- `sorted(genders)` for the set `genders`
(`generate_output_report.py` line 124 etc.). -/
def sortedGendersOf (genders : List String) : List String :=
  sortStrings (dedupFirst [] genders)

/-- AIC cell (`generate_output_report.py` line 140): "N/A" when absent. -/
def aicCell (p : MParams) : String :=
  match p.aic with
  | none => "N/A"
  | some a => a

/-- Coefficient cell (`generate_output_report.py` lines 156-160). -/
def coefCell (params : List (String × Option MParams)) (g nm : String) : String :=
  match pget params g with
  | some p =>
    match alGet p.coefs nm with
    | some v => v
    | none => "N/A"
  | none => "N/A"

/-- The fixed distribution-parameter row order
(`generate_output_report.py` line 164). -/
def distNames : List String := ["mu", "sigma", "nu", "tau"]

/-- Dictionary access `params[gender][param]` for the four distribution
parameters. -/
def distVal (p : MParams) (d : String) : Option String :=
  if d = "mu" then p.mu
  else if d = "sigma" then p.sigma
  else if d = "nu" then p.nu
  else if d = "tau" then p.tau
  else none

/-- Distribution-parameter cell (`generate_output_report.py` lines 164-171). -/
def distCell (params : List (String × Option MParams)) (g d : String) : String :=
  match pget params g with
  | some p =>
    match distVal p d with
    | some v => v
    | none => "N/A"
  | none => "N/A"

/-- `sorted(param_names)`: the union of coefficient names over the sexes for
which the biomarker is present (`generate_output_report.py` lines 147-151). -/
def coefNamesOf (gs : List String) (params : List (String × Option MParams)) :
    List String :=
  sortStrings (dedupFirst []
    ((gs.filterMap (fun g => pget params g)).map (fun p => p.coefs.map Prod.fst)).flatten)

/-- The biomarker parameter table of `generate_output_report.py` lines
124-171: header, model-family row, AIC row, one row per (sorted) coefficient
name, then the four distribution-parameter rows in fixed order; each data
row has one cell per (sorted) sex, "N/A" when absent. -/
def buildTable (genders : List String) (params : List (String × Option MParams)) :
    List (List String) :=
  let gs := sortedGendersOf genders
  let header := "Parameter" :: gs.map (fun g => "Value (" ++ g ++ ")")
  let modelRow := "Best model family" :: gs.map (fun g =>
    match pget params g with
    | some p => p.modelType
    | none => "N/A")
  let aicRow := "AIC" :: gs.map (fun g =>
    match pget params g with
    | some p => aicCell p
    | none => "N/A")
  let coefRows := (coefNamesOf gs params).map (fun nm =>
    nm :: gs.map (fun g => coefCell params g nm))
  let distRows := distNames.map (fun d =>
    d :: gs.map (fun g => distCell params g d))
  header :: modelRow :: aicRow :: (coefRows ++ distRows)

theorem consMap_getD (lab : String) (gs : List String) (f : String → String)
    (i : ℕ) (hi : i < gs.length) :
    (lab :: gs.map f).getD (i + 1) "" = f (gs.getD i "") := by
  rw [List.getD_cons_succ, List.getD_eq_getElem?_getD, List.getElem?_map,
    List.getElem?_eq_getElem hi, List.getD_eq_getElem?_getD,
    List.getElem?_eq_getElem hi]
  rfl

/-- Claim C4.  For every set of sexes and per-sex optional model parameters:
the rendered biomarker table's rows are, in order, a header, one row for the
model family, one for AIC, one per coefficient name (sorted by name), then
one per distribution parameter in the fixed order mu, sigma, nu, tau; every
row has one cell per sex (so no row is omitted); for a sex missing the
biomarker every data-row cell in that sex's column is "N/A"; and for a
present sex whose model family lacks a distribution parameter, that
parameter's row is still in the table with "N/A" in that sex's cell. -/
theorem report_table_structure (genders : List String)
    (params : List (String × Option MParams)) :
    (buildTable genders params).map (fun r => r.headD "") =
        "Parameter" :: "Best model family" :: "AIC" ::
          (coefNamesOf (sortedGendersOf genders) params ++ distNames) ∧
      (coefNamesOf (sortedGendersOf genders) params).Pairwise
        (fun a b => strLe a b = true) ∧
      (∀ row ∈ buildTable genders params,
        row.length = 1 + (sortedGendersOf genders).length) ∧
      (∀ i, i < (sortedGendersOf genders).length →
        pget params ((sortedGendersOf genders).getD i "") = none →
        ∀ row ∈ (buildTable genders params).tail, row.getD (i + 1) "" = "N/A") ∧
      (∀ d ∈ distNames, ∀ i, i < (sortedGendersOf genders).length →
        ∀ p, pget params ((sortedGendersOf genders).getD i "") = some p →
          distVal p d = none →
          (d :: (sortedGendersOf genders).map (fun g => distCell params g d)) ∈
              buildTable genders params ∧
            (d :: (sortedGendersOf genders).map
              (fun g => distCell params g d)).getD (i + 1) "" = "N/A") := by
  refine ⟨?_, ?_, ?_, ?_, ?_⟩
  · simp [buildTable, List.map_map, Function.comp_def]
  · unfold coefNamesOf
    exact sortStrings_pairwise _
  · intro row hrow
    simp only [buildTable, List.mem_cons, List.mem_append, List.mem_map] at hrow
    rcases hrow with h | h | h | ⟨⟨nm, _, h⟩ | ⟨d, _, h⟩⟩ <;> subst h <;>
      simp [List.length_cons, List.length_map, Nat.add_comm]
  · intro i hi hnone row hrow
    simp only [List.getD_eq_getElem?_getD] at hnone
    simp only [buildTable, List.tail_cons, List.mem_cons, List.mem_append,
      List.mem_map] at hrow
    rcases hrow with h | h | ⟨⟨nm, _, h⟩ | ⟨d, _, h⟩⟩ <;> subst h <;>
      rw [consMap_getD _ _ _ i hi] <;>
      simp [coefCell, distCell, hnone]
  · intro d hd i hi p hp hnone
    constructor
    · simp only [buildTable, List.mem_cons, List.mem_append, List.mem_map]
      exact Or.inr (Or.inr (Or.inr (Or.inr ⟨d, hd, rfl⟩)))
    · have hp2 := hp
      simp only [List.getD_eq_getElem?_getD] at hp2
      rw [consMap_getD _ _ _ i hi]
      simp [distCell, hp2, hnone]

/-- Concrete model parameters for the C4 witness (a family using only mu
and sigma). -/
def mparamsF : MParams :=
  ⟨"BCT", some "100.00", some "1.0", some "0.2", none, none, [("(Intercept)", "0.5")]⟩

/-- Concrete per-sex parameters: biomarker present for `"F"`, absent for
`"M"`. -/
def paramsW : List (String × Option MParams) :=
  [("F", some mparamsF), ("M", none)]

/-- Concrete (unsorted) gender set for the C4 witness. -/
def gendersW : List String := ["M", "F"]

/-- Witness for `report_table_structure` at a concrete table: the row-label
order, an "N/A" cell in the model-family row for the absent sex `"M"`
(column 2), and an "N/A" cell in the `nu` row for sex `"F"` whose family
lacks `nu`. -/
theorem report_table_structure_witness :
    (buildTable gendersW paramsW).map (fun r => r.headD "") =
        "Parameter" :: "Best model family" :: "AIC" ::
          (coefNamesOf (sortedGendersOf gendersW) paramsW ++ distNames) ∧
      pget paramsW ((sortedGendersOf gendersW).getD 1 "") = none ∧
      ((buildTable gendersW paramsW).tail.getD 0 []).getD 2 "" = "N/A" ∧
      ("nu" :: (sortedGendersOf gendersW).map
        (fun g => distCell paramsW g "nu")).getD 1 "" = "N/A" := by
  have h := report_table_structure gendersW paramsW
  refine ⟨h.1, by decide, ?_, ?_⟩
  · exact h.2.2.2.1 1 (by decide) (by decide)
      ((buildTable gendersW paramsW).tail.getD 0 []) (by decide)
  · exact (h.2.2.2.2 "nu" (by decide) 0 (by decide) mparamsF (by decide)
      (by decide)).2

/-! ## Persistence round-trip (`main.py` 244-247, `generate_output_report.py`
23-25)

The durable artifact is written with `pickle.dump` and read back with
`pickle.load`; the `pickle` library itself is external to the repository
(the spec places file I/O out of scope).  Modelled from the spec:
"serialize the full structure to a single durable artifact" — persistence is
modelled as a concrete lossless serializer for the aggregated-results value
domain (triple-nested string-keyed mappings of fit results), and the
round-trip property is proved by structural induction rather than assumed. -/

/-- A serialized token. -/
inductive Tok where
  | tStr (v : String)
  | tOpt (v : Option String)
  | tNat (v : ℕ)
  | tQ (v : ℚ)
deriving DecidableEq

/-- One leaf of Aggregated Results (`main.py` lines 235-238):
`model_parameters` plus the centile table (age, value rows). -/
structure FitRes where
  params : MParams
  centiles : List (ℚ × ℚ)
deriving DecidableEq

/-- Serialize a coefficient mapping. -/
def encodePairsS (l : List (String × String)) : List Tok :=
  (l.map (fun p => [Tok.tStr p.1, Tok.tStr p.2])).flatten

/-- Deserialize `k` coefficient pairs. -/
def decodePairsS : ℕ → List Tok → Option (List (String × String) × List Tok)
  | 0, ts => some ([], ts)
  | k + 1, .tStr a :: .tStr b :: ts =>
    match decodePairsS k ts with
    | some (l, rest) => some ((a, b) :: l, rest)
    | none => none
  | _ + 1, _ => none

/-- Serialize a centile table. -/
def encodeCent (l : List (ℚ × ℚ)) : List Tok :=
  (l.map (fun p => [Tok.tQ p.1, Tok.tQ p.2])).flatten

/-- Deserialize `k` centile rows. -/
def decodeCent : ℕ → List Tok → Option (List (ℚ × ℚ) × List Tok)
  | 0, ts => some ([], ts)
  | k + 1, .tQ a :: .tQ b :: ts =>
    match decodeCent k ts with
    | some (l, rest) => some ((a, b) :: l, rest)
    | none => none
  | _ + 1, _ => none

/-- Serialize one fit result. -/
def encodeFit (r : FitRes) : List Tok :=
  [.tStr r.params.modelType, .tOpt r.params.aic, .tOpt r.params.mu,
   .tOpt r.params.sigma, .tOpt r.params.nu, .tOpt r.params.tau,
   .tNat r.params.coefs.length] ++
    encodePairsS r.params.coefs ++ [.tNat r.centiles.length] ++
    encodeCent r.centiles

/-- Deserialize one fit result. -/
def decodeFit : List Tok → Option (FitRes × List Tok)
  | .tStr mt :: .tOpt a :: .tOpt m :: .tOpt sg :: .tOpt nu2 :: .tOpt ta ::
      .tNat k :: rest =>
    match decodePairsS k rest with
    | some (cs, rest1) =>
      match rest1 with
      | .tNat k2 :: rest2 =>
        match decodeCent k2 rest2 with
        | some (ce, rest3) => some (⟨⟨mt, a, m, sg, nu2, ta, cs⟩, ce⟩, rest3)
        | none => none
      | _ => none
    | none => none
  | _ => none

/-- Serialize a biomarker-level mapping. -/
def encodeBio (m : List (String × FitRes)) : List Tok :=
  .tNat m.length :: (m.map (fun p => Tok.tStr p.1 :: encodeFit p.2)).flatten

/-- Deserialize `k` biomarker entries. -/
def decodeBioK : ℕ → List Tok → Option (List (String × FitRes) × List Tok)
  | 0, ts => some ([], ts)
  | k + 1, .tStr key :: ts =>
    match decodeFit ts with
    | some (v, ts1) =>
      match decodeBioK k ts1 with
      | some (rest, ts2) => some ((key, v) :: rest, ts2)
      | none => none
    | none => none
  | _ + 1, _ => none

/-- Deserialize a biomarker-level mapping. -/
def decodeBio : List Tok → Option (List (String × FitRes) × List Tok)
  | .tNat k :: ts => decodeBioK k ts
  | _ => none

/-- Serialize a sex-level mapping. -/
def encodeSex (m : List (String × List (String × FitRes))) : List Tok :=
  .tNat m.length :: (m.map (fun p => Tok.tStr p.1 :: encodeBio p.2)).flatten

/-- Deserialize `k` sex entries. -/
def decodeSexK : ℕ → List Tok →
    Option (List (String × List (String × FitRes)) × List Tok)
  | 0, ts => some ([], ts)
  | k + 1, .tStr key :: ts =>
    match decodeBio ts with
    | some (v, ts1) =>
      match decodeSexK k ts1 with
      | some (rest, ts2) => some ((key, v) :: rest, ts2)
      | none => none
    | none => none
  | _ + 1, _ => none

/-- Deserialize a sex-level mapping. -/
def decodeSex : List Tok →
    Option (List (String × List (String × FitRes)) × List Tok)
  | .tNat k :: ts => decodeSexK k ts
  | _ => none

/-- Persist Aggregated Results (`pickle.dump(results, pkl_file)`). -/
def persistResults (r : Results FitRes) : List Tok :=
  .tNat r.length :: (r.map (fun p => Tok.tStr p.1 :: encodeSex p.2)).flatten

/-- Deserialize `k` tissue entries. -/
def decodeTisK : ℕ → List Tok → Option (Results FitRes × List Tok)
  | 0, ts => some ([], ts)
  | k + 1, .tStr key :: ts =>
    match decodeSex ts with
    | some (v, ts1) =>
      match decodeTisK k ts1 with
      | some (rest, ts2) => some ((key, v) :: rest, ts2)
      | none => none
    | none => none
  | _ + 1, _ => none

/-- Reload Aggregated Results (`pickle.load(f)`): the whole artifact must be
consumed. -/
def loadResults (ts : List Tok) : Option (Results FitRes) :=
  match ts with
  | .tNat k :: ts1 =>
    match decodeTisK k ts1 with
    | some (r, []) => some r
    | _ => none
  | _ => none

theorem decodePairsS_encode (l : List (String × String)) :
    ∀ rest, decodePairsS l.length (encodePairsS l ++ rest) = some (l, rest) := by
  induction l with
  | nil => intro rest; rfl
  | cons p ps ih =>
    intro rest
    obtain ⟨a, b⟩ := p
    simp only [encodePairsS, List.map_cons, List.flatten_cons, List.length_cons,
      List.cons_append, List.append_assoc, List.nil_append]
    rw [decodePairsS]
    rw [show ((ps.map (fun p => [Tok.tStr p.1, Tok.tStr p.2])).flatten ++ rest) =
      (encodePairsS ps ++ rest) from rfl]
    rw [ih rest]

theorem decodeCent_encode (l : List (ℚ × ℚ)) :
    ∀ rest, decodeCent l.length (encodeCent l ++ rest) = some (l, rest) := by
  induction l with
  | nil => intro rest; rfl
  | cons p ps ih =>
    intro rest
    obtain ⟨a, b⟩ := p
    simp only [encodeCent, List.map_cons, List.flatten_cons, List.length_cons,
      List.cons_append, List.append_assoc, List.nil_append]
    rw [decodeCent]
    rw [show ((ps.map (fun p => [Tok.tQ p.1, Tok.tQ p.2])).flatten ++ rest) =
      (encodeCent ps ++ rest) from rfl]
    rw [ih rest]

theorem decodeFit_encode (r : FitRes) :
    ∀ rest, decodeFit (encodeFit r ++ rest) = some (r, rest) := by
  intro rest
  obtain ⟨⟨mt, a, m, sg, nu2, ta, cs⟩, ce⟩ := r
  simp only [encodeFit, List.cons_append, List.append_assoc, List.nil_append]
  rw [decodeFit]
  rw [decodePairsS_encode cs (Tok.tNat ce.length :: (encodeCent ce ++ rest))]
  simp [decodeCent_encode ce rest]

theorem decodeBioK_encode (m : List (String × FitRes)) :
    ∀ rest, decodeBioK m.length
      ((m.map (fun p => Tok.tStr p.1 :: encodeFit p.2)).flatten ++ rest) =
        some (m, rest) := by
  induction m with
  | nil => intro rest; rfl
  | cons p ps ih =>
    intro rest
    obtain ⟨key, v⟩ := p
    simp only [List.map_cons, List.flatten_cons, List.length_cons,
      List.cons_append, List.append_assoc, List.nil_append]
    rw [decodeBioK]
    rw [decodeFit_encode v
      ((ps.map (fun p => Tok.tStr p.1 :: encodeFit p.2)).flatten ++ rest)]
    simp [ih rest]

theorem decodeBio_encode (m : List (String × FitRes)) :
    ∀ rest, decodeBio (encodeBio m ++ rest) = some (m, rest) := by
  intro rest
  simp only [encodeBio, List.cons_append]
  rw [decodeBio]
  exact decodeBioK_encode m rest

theorem decodeSexK_encode (m : List (String × List (String × FitRes))) :
    ∀ rest, decodeSexK m.length
      ((m.map (fun p => Tok.tStr p.1 :: encodeBio p.2)).flatten ++ rest) =
        some (m, rest) := by
  induction m with
  | nil => intro rest; rfl
  | cons p ps ih =>
    intro rest
    obtain ⟨key, v⟩ := p
    simp only [List.map_cons, List.flatten_cons, List.length_cons,
      List.cons_append, List.append_assoc, List.nil_append]
    rw [decodeSexK]
    rw [decodeBio_encode v
      ((ps.map (fun p => Tok.tStr p.1 :: encodeBio p.2)).flatten ++ rest)]
    simp [ih rest]

theorem decodeSex_encode (m : List (String × List (String × FitRes))) :
    ∀ rest, decodeSex (encodeSex m ++ rest) = some (m, rest) := by
  intro rest
  simp only [encodeSex, List.cons_append]
  rw [decodeSex]
  exact decodeSexK_encode m rest

theorem decodeTisK_encode (r : Results FitRes) :
    ∀ rest, decodeTisK r.length
      ((r.map (fun p => Tok.tStr p.1 :: encodeSex p.2)).flatten ++ rest) =
        some (r, rest) := by
  induction r with
  | nil => intro rest; rfl
  | cons p ps ih =>
    intro rest
    obtain ⟨key, v⟩ := p
    simp only [List.map_cons, List.flatten_cons, List.length_cons,
      List.cons_append, List.append_assoc, List.nil_append]
    rw [decodeTisK]
    rw [decodeSex_encode v
      ((ps.map (fun p => Tok.tStr p.1 :: encodeSex p.2)).flatten ++ rest)]
    simp [ih rest]

/-- Claim C8.  For every Aggregated Results structure (in particular every
one built by the combination loop), persisting it to the durable artifact
and reloading yields exactly the original structure, key for key and value
for value. -/
theorem persist_reload_roundtrip (r : Results FitRes) :
    loadResults (persistResults r) = some r := by
  simp only [persistResults, loadResults]
  have h := decodeTisK_encode r []
  rw [List.append_nil] at h
  rw [h]
